import Mathlib

/-!
Shallow embedding of the Flavor-Sense mess-feedback application
(source: `src/app.py`) and verification of its behavioral specification.

Conventions:
* Python `str.strip()` is modelled by `pyStrip`, Python `str.lower()`
  by `lower` (character-wise ASCII lowercasing, matching `Char.toLower`).
* The two CSV tables are modelled as in-memory lists of records, since every
  handler reads the whole table and (for updates) rewrites it whole.
* The current UTC weekday (`datetime.now(timezone.utc).strftime("%a")`) is an
  explicit `Weekday` parameter of every function that consults the clock.
* SMTP transmission is modelled by an explicit `SmtpOutcome` parameter: the
  `try` block either succeeds or raises, and `send_email` converts either
  outcome to a boolean.
* `generate_password_hash` (werkzeug, salted) is modelled as an abstract
  function parameter `hash : String → String` (one salt draw fixed).
-/

namespace FlavorSense

/-- Python `str.lower()` (ASCII case folding, character-wise). -/
def lower (s : String) : String := String.mk (s.data.map Char.toLower)

/-- Python `str.strip()`: drop whitespace from both ends. -/
def pyStrip (s : String) : String :=
  String.mk (((s.data.dropWhile Char.isWhitespace).reverse.dropWhile
    Char.isWhitespace).reverse)

/-- The seven weekday column names `Mon` .. `Sun` of `reviews.csv`,
as produced by `strftime("%a")`. -/
inductive Weekday where
  | mon | tue | wed | thu | fri | sat | sun
deriving DecidableEq

/-- One row of `reviews.csv`: an email plus one flag string per weekday. -/
structure ReviewRow where
  email : String
  mon : String
  tue : String
  wed : String
  thu : String
  fri : String
  sat : String
  sun : String
deriving DecidableEq

/-- Read the weekday column of a review row (`row[weekday]`). -/
def ReviewRow.get (row : ReviewRow) : Weekday → String
  | .mon => row.mon
  | .tue => row.tue
  | .wed => row.wed
  | .thu => row.thu
  | .fri => row.fri
  | .sat => row.sat
  | .sun => row.sun

/-- Write the weekday column of a review row (`row[weekday] = v`). -/
def ReviewRow.set (row : ReviewRow) : Weekday → String → ReviewRow
  | .mon, v => { row with mon := v }
  | .tue, v => { row with tue := v }
  | .wed, v => { row with wed := v }
  | .thu, v => { row with thu := v }
  | .fri, v => { row with fri := v }
  | .sat, v => { row with sat := v }
  | .sun, v => { row with sun := v }

/-- The row appended by `create_reviews_row`: all seven flags `"no"`. -/
def freshReviewRow (email : String) : ReviewRow :=
  { email := email, mon := "no", tue := "no", wed := "no", thu := "no",
    fri := "no", sat := "no", sun := "no" }

/-- `create_reviews_row(email)`: append a fresh all-`"no"` row to `reviews.csv`. -/
def create_reviews_row (email : String) (rows : List ReviewRow) : List ReviewRow :=
  rows ++ [freshReviewRow email]

/-- `update_review_for_today(email)`: set today's weekday column to `"yes"`
on every row whose email matches case-insensitively; rewrite the table. -/
def update_review_for_today (wd : Weekday) (email : String)
    (rows : List ReviewRow) : List ReviewRow :=
  rows.map fun row =>
    if lower row.email = lower email then ReviewRow.set row wd "yes" else row

/-- One row of `students.csv`. -/
structure Account where
  name : String
  email : String
  password_hash : String
deriving DecidableEq

/-- `student_exists(email)`: case-insensitive linear scan of `students.csv`. -/
def student_exists (email : String) (students : List Account) : Bool :=
  students.any fun s => lower s.email = lower email

/-- `save_student(name, email, password_hash)`: append one row to `students.csv`. -/
def save_student (name email password_hash : String)
    (students : List Account) : List Account :=
  students ++ [{ name := name, email := email, password_hash := password_hash }]

/-- Outcome of the `register` POST handler: re-render the form with an error,
or set the student session and redirect to the review page. -/
inductive RegisterResult where
  | formError (msg : String)
  | redirectToReview (sessionEmail sessionName : String)
deriving DecidableEq

/-- The durable state touched by registration: both CSV tables. -/
structure RegState where
  students : List Account
  reviews : List ReviewRow
deriving DecidableEq

/-- The POST branch of the `register` handler (lines 197-219 of `app.py`),
for a request with no active student session. `hash` models werkzeug's
salted `generate_password_hash`. -/
def register (hash : String → String) (name email password : String)
    (st : RegState) : RegisterResult × RegState :=
  let name := (pyStrip name)
  let email := lower (pyStrip email)
  if name = "" ∨ email = "" ∨ password = "" then
    (RegisterResult.formError "Please fill in all fields.", st)
  else if password.length < 6 then
    (RegisterResult.formError "Password must be at least 6 characters.", st)
  else if student_exists email st.students then
    (RegisterResult.formError "This email is already registered. Please login.", st)
  else
    (RegisterResult.redirectToReview email name,
     { students := save_student name email (hash password) st.students,
       reviews := create_reviews_row email st.reviews })

/-- JSON values that can appear in a `/rate` request body. -/
inductive Jval where
  | jnull
  | jbool (b : Bool)
  | jint (n : Int)
  | jrat (q : Rat)
  | jstr (s : String)
deriving DecidableEq

/-- First-match association-list lookup (Python `dict` access; keys unique). -/
def alookup {β : Type} : List (String × β) → String → Option β
  | [], _ => none
  | (k', v) :: rest, k => if k' = k then some v else alookup rest k

/-- In-place association-list update with default, appending a new key at the
end (Python `dict` insertion-order semantics). -/
def updateAssoc {β : Type} (l : List (String × β)) (k : String) (d : β)
    (f : β → β) : List (String × β) :=
  match l with
  | [] => [(k, f d)]
  | (k', v) :: rest =>
      if k' = k then (k', f v) :: rest else (k', v) :: updateAssoc rest k d f

/-- Tail of a Python integer-literal digit run: digits optionally separated by
single underscores, no trailing or doubled underscore. -/
def digitsTailOk : List Char → Bool
  | [] => true
  | '_' :: rest =>
      match rest with
      | [] => false
      | c :: rest2 => c.isDigit && digitsTailOk rest2
  | c :: rest => c.isDigit && digitsTailOk rest

/-- A nonempty Python digit run: starts with a digit, underscores only between
digits. -/
def digitsOk : List Char → Bool
  | [] => false
  | c :: rest => c.isDigit && digitsTailOk rest

/-- Drop the underscore digit separators. -/
def dropSeps (cs : List Char) : List Char :=
  cs.filter fun c => c != '_'

/-- Decimal value of a digit list. -/
def digitsToNat (cs : List Char) : Nat :=
  cs.foldl (fun acc c => 10 * acc + (c.toNat - 48)) 0

/-- Python `int(s)` on a string: strip whitespace, optional single sign, then
a digit run (underscore separators allowed); `none` models `ValueError`. -/
def pyIntOfStr (s : String) : Option Int :=
  match (pyStrip s).data with
  | [] => none
  | '+' :: rest =>
      if digitsOk rest then some (Int.ofNat (digitsToNat (dropSeps rest))) else none
  | '-' :: rest =>
      if digitsOk rest then some (-(Int.ofNat (digitsToNat (dropSeps rest)))) else none
  | cs =>
      if digitsOk cs then some (Int.ofNat (digitsToNat (dropSeps cs))) else none

/-- Python `int(x)` coercion of a JSON value: `none` models `TypeError` /
`ValueError` (both caught by the handler). Floats truncate toward zero;
booleans are the integers 0 and 1; `None`, lists and objects fail. -/
def pyInt : Jval → Option Int
  | Jval.jnull => none
  | Jval.jbool b => some (if b then 1 else 0)
  | Jval.jint n => some n
  | Jval.jrat q => some (q.num.tdiv (q.den : Int))
  | Jval.jstr s => pyIntOfStr s

/-- Outcome of the `rate` POST handler body. The three 400-constructors carry
the JSON error responses; `ok` carries the success response
`{"message": "Rating saved", "item": item, "rating": rating}` together with
the stripped date used for recording; `crash` models the uncaught
`AttributeError` raised by `.strip()` on a non-string `item`/`date` field. -/
inductive RateResult where
  | invalidJson
  | missingItemOrDate
  | badRating
  | ok (message item : String) (rating : Int) (date : String)
  | crash
deriving DecidableEq

/-- `data.get(k, "")` followed by `.strip()`-readiness: `some` the raw string
(missing key defaults to `""`), `none` when the field is present but not a
string (Python would raise on `.strip()`). -/
def getStr (d : List (String × Jval)) (k : String) : Option String :=
  match alookup d k with
  | none => some ""
  | some (Jval.jstr s) => some s
  | some _ => none

/-- Pure validation core of the `rate` handler (lines 274-290 of `app.py`),
for a request with an authenticated student session. `none` models
`request.get_json(silent=True)` returning `None` (unparsable body); an empty
dict is falsy in Python and also yields the "Invalid JSON" 400. -/
def rate (data : Option (List (String × Jval))) : RateResult :=
  match data with
  | none => RateResult.invalidJson
  | some d =>
    if d.isEmpty then RateResult.invalidJson
    else
      match getStr d "item", getStr d "date" with
      | some item0, some date0 =>
        let item := pyStrip item0
        let date := pyStrip date0
        if item = "" ∨ date = "" then RateResult.missingItemOrDate
        else
          match pyInt ((alookup d "rating").getD Jval.jnull) with
          | none => RateResult.badRating
          | some r =>
              if r < 1 ∨ 5 < r then RateResult.badRating
              else RateResult.ok "Rating saved" item r date
      | _, _ => RateResult.crash

/-- Append a rating to `RATINGS[date][item]`, creating intermediate entries
(`RATINGS[date] = {}` / `setdefault(item, [])`) as needed. -/
def recordRating (R : List (String × List (String × List Int)))
    (date item : String) (r : Int) : List (String × List (String × List Int)) :=
  updateAssoc R date [] fun m => updateAssoc m item [] fun l => l ++ [r]

/-- The `/ratings/<date>` handler body: `RATINGS.get(date, {})`. -/
def get_ratings (R : List (String × List (String × List Int)))
    (date : String) : List (String × List Int) :=
  (alookup R date).getD []

/-- The list of ratings recorded for a `(date, item)` pair (empty if absent). -/
def itemList (R : List (String × List (String × List Int)))
    (date item : String) : List Int :=
  (alookup (get_ratings R date) item).getD []

/-- The process state mutated by a successful `/rate`: the in-memory
`RATINGS` map and the `reviews.csv` table. -/
structure AppState where
  ratings : List (String × List (String × List Int))
  reviews : List ReviewRow
deriving DecidableEq

/-- The whole `rate` handler including its two store effects (lines 292-301):
on success it records the rating and marks today reviewed for the session's
student; on any validation failure both stores are untouched. -/
def rate_full (wd : Weekday) (sessionEmail : String)
    (data : Option (List (String × Jval))) (st : AppState) :
    RateResult × AppState :=
  match rate data with
  | RateResult.ok m item r date =>
      (RateResult.ok m item r date,
       { ratings := recordRating st.ratings date item r,
         reviews := update_review_for_today wd sessionEmail st.reviews })
  | res => (res, st)

/-- Python truthiness of `os.environ.get(..)`: set and nonempty. -/
def truthy : Option String → Bool
  | none => false
  | some s => s != ""

/-- Result of the SMTP `try` block in `send_email`: the transmission either
completes or raises some exception. -/
inductive SmtpOutcome where
  | success
  | failure (msg : String)
deriving DecidableEq

/-- Did the transmission complete without raising? -/
def SmtpOutcome.isSuccess : SmtpOutcome → Bool
  | SmtpOutcome.success => true
  | SmtpOutcome.failure _ => false

/-- Observable behavior of one `send_email` call: whether a transmission was
attempted at all, and the boolean the function returns. -/
structure EmailAttempt where
  attempted : Bool
  result : Bool
deriving DecidableEq

/-- `send_email(to_email, subject, body)` (lines 124-150): skip (returning
`False`) when `EMAIL_USER`/`EMAIL_PASS` is unset or empty; otherwise attempt
transmission, catching every exception and converting it to `False`. -/
def send_email (user password : Option String) (transmit : SmtpOutcome) :
    EmailAttempt :=
  if truthy user = false ∨ truthy password = false then
    { attempted := false, result := false }
  else
    match transmit with
    | SmtpOutcome.success => { attempted := true, result := true }
    | SmtpOutcome.failure _ => { attempted := true, result := false }

/-- Summary of one `/send-reminders` run: the recipients for which
`send_email` was called (in row order), and the two tallies. -/
structure ReminderSummary where
  attempted : List String
  sent : Nat
  skipped : Nat
deriving DecidableEq

/-- One iteration of the `/send-reminders` loop (lines 375-392): a row is
processed when `row.get(weekday, "no").lower() == "no"`. -/
def reminderStep (wd : Weekday) (user password : Option String)
    (transmit : String → SmtpOutcome) (acc : ReminderSummary)
    (row : ReviewRow) : ReminderSummary :=
  if lower (ReviewRow.get row wd) = "no" then
    if (send_email user password (transmit row.email)).result then
      { acc with attempted := acc.attempted ++ [row.email], sent := acc.sent + 1 }
    else
      { acc with attempted := acc.attempted ++ [row.email], skipped := acc.skipped + 1 }
  else acc

/-- The `/send-reminders` handler loop over all review rows. `transmit` gives
the SMTP outcome per recipient (per-recipient isolation: one failure does not
abort the rest). -/
def send_reminders (wd : Weekday) (rows : List ReviewRow)
    (user password : Option String) (transmit : String → SmtpOutcome) :
    ReminderSummary :=
  rows.foldl (reminderStep wd user password transmit)
    { attempted := [], sent := 0, skipped := 0 }

/-- The global menu record. -/
structure Menu where
  breakfast : String
  lunch : String
  dinner : String
deriving DecidableEq

/-- The `/update-menu` handler (lines 348-357): each submitted field is
stripped; a field that strips to empty leaves the current value unchanged. -/
def update_menu (breakfast lunch dinner : String) (m : Menu) : Menu :=
  { breakfast := if (pyStrip breakfast) ≠ "" then (pyStrip breakfast) else m.breakfast,
    lunch := if (pyStrip lunch) ≠ "" then (pyStrip lunch) else m.lunch,
    dinner := if (pyStrip dinner) ≠ "" then (pyStrip dinner) else m.dinner }

/-- Does the `rate` outcome model an HTTP 400 response carrying an `error`
field? -/
def is400 : RateResult → Bool
  | RateResult.invalidJson => true
  | RateResult.missingItemOrDate => true
  | RateResult.badRating => true
  | _ => false

/-- Build a `/rate` request dict from optional `item`, `date` (strings) and
`rating` (any JSON value) fields. -/
def optField (k : String) : Option Jval → List (String × Jval)
  | none => []
  | some v => [(k, v)]

/-- The payload dict `{item, date, rating}` with any subset of keys present. -/
def mkPayload (item date : Option String) (rating : Option Jval) :
    List (String × Jval) :=
  optField "item" (item.map Jval.jstr) ++ optField "date" (date.map Jval.jstr) ++
    optField "rating" rating

/-- A review row whose Monday flag is the string `"maybe"`: not `"yes"`, yet
also not `"no"`, so the reminder loop skips it. -/
def oddFlagRow : ReviewRow :=
  { email := "a@b.c", mon := "maybe", tue := "no", wed := "no", thu := "no",
    fri := "no", sat := "no", sun := "no" }

theorem char_toNat_ofNat_valid (n : Nat) (h : n.isValidChar) :
    (Char.ofNat n).toNat = n := by
  rw [Char.ofNat, dif_pos h]; rfl

theorem char_toNat_toLower (c : Char) :
    c.toLower.toNat = if c.toNat ≥ 65 ∧ c.toNat ≤ 90 then c.toNat + 32 else c.toNat := by
  show (if c.toNat ≥ 65 ∧ c.toNat ≤ 90 then Char.ofNat (c.toNat + 32) else c).toNat = _
  by_cases h : c.toNat ≥ 65 ∧ c.toNat ≤ 90
  · rw [if_pos h, if_pos h, char_toNat_ofNat_valid]
    exact Or.inl (by omega)
  · rw [if_neg h, if_neg h]

theorem char_toLower_toLower (c : Char) : c.toLower.toLower = c.toLower := by
  have h1 := char_toNat_toLower c
  by_cases h : c.toLower.toNat ≥ 65 ∧ c.toLower.toNat ≤ 90
  · exfalso
    split at h1 <;> omega
  · show (if c.toLower.toNat ≥ 65 ∧ c.toLower.toNat ≤ 90 then
        Char.ofNat (c.toLower.toNat + 32) else c.toLower) = c.toLower
    rw [if_neg h]

theorem lower_lower (s : String) : lower (lower s) = lower s := by
  simp [lower, List.map_map, Function.comp_def, char_toLower_toLower]

theorem get_set_self (row : ReviewRow) (wd : Weekday) (v : String) :
    ReviewRow.get (ReviewRow.set row wd v) wd = v := by
  cases wd <;> rfl

theorem get_set_ne (row : ReviewRow) (wd d : Weekday) (v : String) (h : d ≠ wd) :
    ReviewRow.get (ReviewRow.set row wd v) d = ReviewRow.get row d := by
  cases wd <;> cases d <;> first | rfl | exact absurd rfl h

theorem email_set (row : ReviewRow) (wd : Weekday) (v : String) :
    (ReviewRow.set row wd v).email = row.email := by
  cases wd <;> rfl

theorem update_review_length (wd : Weekday) (email : String) (rows : List ReviewRow) :
    (update_review_for_today wd email rows).length = rows.length := by
  simp [update_review_for_today]

theorem update_review_pointwise (wd : Weekday) (email : String)
    (rows : List ReviewRow) (i : Nat) :
    (update_review_for_today wd email rows)[i]? =
      (rows[i]?).map (fun row =>
        if lower row.email = lower email then ReviewRow.set row wd "yes" else row) := by
  simp [update_review_for_today, List.getElem?_map]

theorem update_review_no_match (wd : Weekday) (email : String)
    (rows : List ReviewRow) (h : ∀ row ∈ rows, lower row.email ≠ lower email) :
    update_review_for_today wd email rows = rows := by
  induction rows with
  | nil => rfl
  | cons r rest ih =>
    have hr : lower r.email ≠ lower email := h r (List.mem_cons_self r rest)
    simp only [update_review_for_today, List.map_cons] at ih ⊢
    rw [if_neg hr, ih fun row hrow => h row (List.mem_cons_of_mem r hrow)]

theorem alookup_updateAssoc_self {β : Type} (l : List (String × β)) (k : String)
    (d : β) (f : β → β) :
    alookup (updateAssoc l k d f) k = some (f ((alookup l k).getD d)) := by
  induction l with
  | nil => simp [alookup, updateAssoc]
  | cons hd tl ih =>
    obtain ⟨k', v⟩ := hd
    by_cases h : k' = k
    · subst h
      simp [alookup, updateAssoc]
    · simp [alookup, updateAssoc, h, ih]

theorem alookup_updateAssoc_ne {β : Type} (l : List (String × β)) (k k' : String)
    (d : β) (f : β → β) (hne : k' ≠ k) :
    alookup (updateAssoc l k d f) k' = alookup l k' := by
  induction l with
  | nil => simp [alookup, updateAssoc, Ne.symm hne]
  | cons hd tl ih =>
    obtain ⟨k0, v⟩ := hd
    by_cases h : k0 = k
    · subst h
      simp [alookup, updateAssoc, Ne.symm hne]
    · simp [alookup, updateAssoc, h, ih]

theorem itemList_recordRating_self (R : List (String × List (String × List Int)))
    (date item : String) (r : Int) :
    itemList (recordRating R date item r) date item = itemList R date item ++ [r] := by
  cases hR : alookup R date with
  | none => simp [itemList, recordRating, get_ratings, alookup_updateAssoc_self, hR]
  | some m => simp [itemList, recordRating, get_ratings, alookup_updateAssoc_self, hR]

/-- C5: `update_review_for_today` sets the current UTC weekday column to
`"yes"` in every row whose email matches the argument case-insensitively,
leaves every other cell of every row unchanged, and is a no-op (with no
error) when no row matches. -/
theorem update_review_for_today_spec (wd : Weekday) (email : String)
    (rows : List ReviewRow) :
    (update_review_for_today wd email rows).length = rows.length ∧
    (∀ i : Nat, (update_review_for_today wd email rows)[i]? =
      (rows[i]?).map (fun row =>
        if lower row.email = lower email then ReviewRow.set row wd "yes" else row)) ∧
    (∀ row : ReviewRow,
      ReviewRow.get (ReviewRow.set row wd "yes") wd = "yes" ∧
      (ReviewRow.set row wd "yes").email = row.email ∧
      ∀ d : Weekday, d ≠ wd →
        ReviewRow.get (ReviewRow.set row wd "yes") d = ReviewRow.get row d) ∧
    ((∀ row ∈ rows, lower row.email ≠ lower email) →
      update_review_for_today wd email rows = rows) := by
  refine ⟨update_review_length wd email rows, update_review_pointwise wd email rows,
    fun row => ⟨get_set_self row wd "yes", email_set row wd "yes",
      fun d hd => get_set_ne row wd d "yes" hd⟩,
    update_review_no_match wd email rows⟩

theorem update_review_for_today_spec_witness :
    update_review_for_today Weekday.mon "c@d.e" [freshReviewRow "a@b.c"] =
      [freshReviewRow "a@b.c"] :=
  (update_review_for_today_spec Weekday.mon "c@d.e" [freshReviewRow "a@b.c"]).2.2.2
    (by decide)

/-- C7: `send_email` returns false without attempting transmission when the
sender credentials are unset (or empty), and converts every transmission
failure to a false return; as a total function of the transmission outcome it
never propagates an exception. -/
theorem send_email_spec (user password : Option String) (transmit : SmtpOutcome) :
    send_email user password transmit =
      { attempted := truthy user && truthy password,
        result := truthy user && truthy password && SmtpOutcome.isSuccess transmit } := by
  cases transmit <;> by_cases hu : truthy user <;> by_cases hp : truthy password <;>
    simp_all [send_email, SmtpOutcome.isSuccess]

/-- C8: `/update-menu` leaves each menu field whose submission strips to blank
unchanged and replaces each non-blank field with its stripped value; in
particular a submission providing only `lunch` changes lunch and leaves
breakfast and dinner at their prior values. -/
theorem update_menu_spec (breakfast lunch dinner : String) (m : Menu) :
    update_menu breakfast lunch dinner m =
      { breakfast := if (pyStrip breakfast) = "" then m.breakfast else (pyStrip breakfast),
        lunch := if (pyStrip lunch) = "" then m.lunch else (pyStrip lunch),
        dinner := if (pyStrip dinner) = "" then m.dinner else (pyStrip dinner) } ∧
    update_menu "" lunch "" m =
      { m with lunch := if (pyStrip lunch) = "" then m.lunch else (pyStrip lunch) } := by
  have h0 : pyStrip "" = "" := rfl
  constructor
  · simp [update_menu, ite_not]
  · simp [update_menu, ite_not, h0]

theorem reminderStep_processed (wd : Weekday) (user password : Option String)
    (transmit : String → SmtpOutcome) (a : ReminderSummary) (r : ReviewRow)
    (h : lower (ReviewRow.get r wd) = "no") :
    (reminderStep wd user password transmit a r).attempted = a.attempted ++ [r.email] ∧
    (reminderStep wd user password transmit a r).sent +
      (reminderStep wd user password transmit a r).skipped =
      a.sent + a.skipped + 1 := by
  simp only [reminderStep, if_pos h]
  by_cases hs : (send_email user password (transmit r.email)).result = true
  · simp [hs]
    omega
  · simp [hs]
    omega

theorem send_reminders_loop (wd : Weekday) (user password : Option String)
    (transmit : String → SmtpOutcome) (rows : List ReviewRow) (acc : ReminderSummary) :
    (rows.foldl (reminderStep wd user password transmit) acc).attempted =
      acc.attempted ++
        ((rows.filter fun row => lower (ReviewRow.get row wd) == "no").map
          fun row => row.email) ∧
    (rows.foldl (reminderStep wd user password transmit) acc).sent +
      (rows.foldl (reminderStep wd user password transmit) acc).skipped =
      acc.sent + acc.skipped +
        (rows.filter fun row => lower (ReviewRow.get row wd) == "no").length := by
  induction rows generalizing acc with
  | nil => simp
  | cons r rest ih =>
    simp only [List.foldl_cons, List.filter_cons]
    by_cases h : lower (ReviewRow.get r wd) = "no"
    · have hb : (lower (ReviewRow.get r wd) == "no") = true := beq_iff_eq.mpr h
      rw [if_pos hb]
      obtain ⟨ih1, ih2⟩ := ih (reminderStep wd user password transmit acc r)
      obtain ⟨p1, p2⟩ := reminderStep_processed wd user password transmit acc r h
      constructor
      · rw [ih1, p1, List.map_cons, List.append_assoc]
        rfl
      · rw [ih2]
        simp only [List.length_cons]
        omega
    · have hb : (lower (ReviewRow.get r wd) == "no") = false := by
        simp [h]
      rw [if_neg (by simp [hb])]
      have hstep : reminderStep wd user password transmit acc r = acc := by
        simp [reminderStep, h]
      rw [hstep]
      exact ih acc

/-- C1 counterexample: a review row whose current-weekday flag is `"maybe"` is
not `"yes"` (case-insensitively), yet `/send-reminders` attempts no send for
it (the code tests `flag.lower() == "no"`, not `!= "yes"`), and both reported
counts stay zero, refuting the claimed one-attempt-per-non-yes-row behavior. -/
theorem send_reminders_counterexample :
    lower (ReviewRow.get oddFlagRow Weekday.mon) ≠ "yes" ∧
    (send_reminders Weekday.mon [oddFlagRow] (some "user@x.y") (some "pw")
      (fun _ => SmtpOutcome.success)).attempted = [] ∧
    (send_reminders Weekday.mon [oddFlagRow] (some "user@x.y") (some "pw")
      (fun _ => SmtpOutcome.success)).sent = 0 ∧
    (send_reminders Weekday.mon [oddFlagRow] (some "user@x.y") (some "pw")
      (fun _ => SmtpOutcome.success)).skipped = 0 := by
  decide

/-- C1 (amended): for every review-rows table and current UTC weekday,
`/send-reminders` attempts exactly one reminder send for each row whose
current-weekday flag lowercased equals `"no"` (in row order) and zero for
every other row — in particular zero for rows whose flag is `"yes"`
case-insensitively — and the reported sent and skipped counts sum to the
number of attempted sends. -/
theorem send_reminders_spec (wd : Weekday) (rows : List ReviewRow)
    (user password : Option String) (transmit : String → SmtpOutcome) :
    (send_reminders wd rows user password transmit).attempted =
      ((rows.filter fun row => lower (ReviewRow.get row wd) == "no").map
        fun row => row.email) ∧
    (send_reminders wd rows user password transmit).sent +
      (send_reminders wd rows user password transmit).skipped =
      (send_reminders wd rows user password transmit).attempted.length := by
  have h1 := (send_reminders_loop wd user password transmit rows ⟨[], 0, 0⟩).1
  have h2 := (send_reminders_loop wd user password transmit rows ⟨[], 0, 0⟩).2
  simp only [send_reminders]
  constructor
  · simpa using h1
  · rw [h2, h1]
    simp [List.length_map]

theorem pyStrip_empty : pyStrip "" = "" := rfl

theorem rate_mkPayload_eval (item date : String) (r : Jval) :
    rate (some (mkPayload (some item) (some date) (some r))) =
      if pyStrip item = "" ∨ pyStrip date = "" then RateResult.missingItemOrDate
      else
        match pyInt r with
        | none => RateResult.badRating
        | some n =>
            if n < 1 ∨ 5 < n then RateResult.badRating
            else RateResult.ok "Rating saved" (pyStrip item) n (pyStrip date) := by
  by_cases hmd : pyStrip item = "" ∨ pyStrip date = ""
  · simp [rate, mkPayload, optField, getStr, alookup, hmd]
  · cases hr : pyInt r with
    | none => simp [rate, mkPayload, optField, getStr, alookup, hmd, hr]
    | some n => simp [rate, mkPayload, optField, getStr, alookup, hmd, hr]

/-- C2: with an authenticated student session, POST /rate answers 400 with an
error field for an unparsable body, a missing or empty item, a missing or
empty date, a missing rating, and the ratings 0, 6 and "abc"; the boundary
ratings 1 and 5 are accepted and answered with the confirmation carrying the
message, the item and the rating. -/
theorem rate_validation (item date : String) (r : Jval)
    (hitem : pyStrip item ≠ "") (hdate : pyStrip date ≠ "") :
    is400 (rate none) = true ∧
    is400 (rate (some (mkPayload none (some date) (some r)))) = true ∧
    is400 (rate (some (mkPayload (some "") (some date) (some r)))) = true ∧
    is400 (rate (some (mkPayload (some item) none (some r)))) = true ∧
    is400 (rate (some (mkPayload (some item) (some "") (some r)))) = true ∧
    is400 (rate (some (mkPayload (some item) (some date) none))) = true ∧
    is400 (rate (some (mkPayload (some item) (some date) (some (Jval.jint 0))))) = true ∧
    is400 (rate (some (mkPayload (some item) (some date) (some (Jval.jint 6))))) = true ∧
    is400 (rate (some (mkPayload (some item) (some date) (some (Jval.jstr "abc"))))) = true ∧
    rate (some (mkPayload (some item) (some date) (some (Jval.jint 1)))) =
      RateResult.ok "Rating saved" (pyStrip item) 1 (pyStrip date) ∧
    rate (some (mkPayload (some item) (some date) (some (Jval.jint 5)))) =
      RateResult.ok "Rating saved" (pyStrip item) 5 (pyStrip date) := by
  have habc : pyInt (Jval.jstr "abc") = none := by decide
  have hmd : ¬(pyStrip item = "" ∨ pyStrip date = "") := by simp [hitem, hdate]
  refine ⟨rfl, ?_, ?_, ?_, ?_, ?_, ?_, ?_, ?_, ?_, ?_⟩
  · simp [rate, mkPayload, optField, getStr, alookup, is400, pyStrip_empty]
  · simp [rate, mkPayload, optField, getStr, alookup, is400, pyStrip_empty]
  · simp [rate, mkPayload, optField, getStr, alookup, is400, pyStrip_empty]
  · simp [rate, mkPayload, optField, getStr, alookup, is400, pyStrip_empty]
  · simp [rate, mkPayload, optField, getStr, alookup, is400, hmd, pyInt]
  · rw [rate_mkPayload_eval, if_neg hmd]
    simp [pyInt, is400]
  · rw [rate_mkPayload_eval, if_neg hmd]
    simp [pyInt, is400]
  · rw [rate_mkPayload_eval, if_neg hmd]
    simp [habc, is400]
  · rw [rate_mkPayload_eval, if_neg hmd]
    norm_num [pyInt]
  · rw [rate_mkPayload_eval, if_neg hmd]
    norm_num [pyInt]

theorem rate_validation_witness :
    is400 (rate none) = true ∧
    is400 (rate (some (mkPayload none (some "2024-01-01") (some Jval.jnull)))) = true ∧
    is400 (rate (some (mkPayload (some "") (some "2024-01-01") (some Jval.jnull)))) = true ∧
    is400 (rate (some (mkPayload (some "Idli") none (some Jval.jnull)))) = true ∧
    is400 (rate (some (mkPayload (some "Idli") (some "") (some Jval.jnull)))) = true ∧
    is400 (rate (some (mkPayload (some "Idli") (some "2024-01-01") none))) = true ∧
    is400 (rate (some (mkPayload (some "Idli") (some "2024-01-01")
      (some (Jval.jint 0))))) = true ∧
    is400 (rate (some (mkPayload (some "Idli") (some "2024-01-01")
      (some (Jval.jint 6))))) = true ∧
    is400 (rate (some (mkPayload (some "Idli") (some "2024-01-01")
      (some (Jval.jstr "abc"))))) = true ∧
    rate (some (mkPayload (some "Idli") (some "2024-01-01") (some (Jval.jint 1)))) =
      RateResult.ok "Rating saved" "Idli" 1 "2024-01-01" ∧
    rate (some (mkPayload (some "Idli") (some "2024-01-01") (some (Jval.jint 5)))) =
      RateResult.ok "Rating saved" "Idli" 5 "2024-01-01" :=
  rate_validation "Idli" "2024-01-01" Jval.jnull (by decide) (by decide)

/-- C3: after every successful POST /rate by an authenticated student, every
review row whose email matches the session email case-insensitively has the
current UTC weekday column set to `"yes"` with its other six weekday columns
and its email unchanged, and every row of any other student is unchanged. -/
theorem rate_full_review_effect (wd : Weekday) (email : String)
    (data : Option (List (String × Jval))) (st : AppState)
    (m item : String) (r : Int) (date : String)
    (hok : (rate_full wd email data st).1 = RateResult.ok m item r date) :
    (rate_full wd email data st).2.reviews.length = st.reviews.length ∧
    ∀ i : Nat, ∀ row : ReviewRow, st.reviews[i]? = some row →
      (lower row.email = lower email →
        (rate_full wd email data st).2.reviews[i]? =
          some (ReviewRow.set row wd "yes") ∧
        ReviewRow.get (ReviewRow.set row wd "yes") wd = "yes" ∧
        (ReviewRow.set row wd "yes").email = row.email ∧
        ∀ d : Weekday, d ≠ wd →
          ReviewRow.get (ReviewRow.set row wd "yes") d = ReviewRow.get row d) ∧
      (lower row.email ≠ lower email →
        (rate_full wd email data st).2.reviews[i]? = some row) := by
  have hrev : (rate_full wd email data st).2.reviews =
      update_review_for_today wd email st.reviews := by
    cases hr : rate data <;> simp [rate_full, hr] at hok ⊢
  rw [hrev]
  refine ⟨update_review_length wd email st.reviews, ?_⟩
  intro i row hrow
  have hpt := update_review_pointwise wd email st.reviews i
  rw [hrow] at hpt
  constructor
  · intro hm
    refine ⟨?_, get_set_self row wd "yes", email_set row wd "yes",
      fun d hd => get_set_ne row wd d "yes" hd⟩
    rw [hpt]
    simp [hm]
  · intro hm
    rw [hpt]
    simp [hm]

theorem rate_full_review_effect_witness :
    ((rate_full Weekday.mon "a@b.c"
      (some (mkPayload (some "Idli") (some "2024-01-01") (some (Jval.jint 5))))
      ⟨[], [freshReviewRow "a@b.c"]⟩).2.reviews)[0]? =
      some (ReviewRow.set (freshReviewRow "a@b.c") Weekday.mon "yes") :=
  (((rate_full_review_effect Weekday.mon "a@b.c"
      (some (mkPayload (some "Idli") (some "2024-01-01") (some (Jval.jint 5))))
      ⟨[], [freshReviewRow "a@b.c"]⟩ "Rating saved" "Idli" 5 "2024-01-01"
      (by decide)).2 0 (freshReviewRow "a@b.c") (by decide)).1 (by decide)).1

/-- C4: POST /register rejects (re-rendering the form with an error and
leaving both tables untouched) exactly when the stripped name, the stripped
lowercased email, or the password is empty, the password is shorter than 6
characters, or the email already exists case-insensitively; otherwise it
appends the account with the hashed password, appends a review row whose
seven weekday flags are all `"no"`, and establishes the student session via
the redirect to the review page. -/
theorem register_spec (hash : String → String) (name email password : String)
    (st : RegState) :
    ((pyStrip name = "" ∨ lower (pyStrip email) = "" ∨ password = "" ∨
        password.length < 6 ∨
        student_exists (lower (pyStrip email)) st.students = true) →
      (register hash name email password st).2 = st ∧
      ∃ msg, (register hash name email password st).1 =
        RegisterResult.formError msg) ∧
    (¬(pyStrip name = "" ∨ lower (pyStrip email) = "" ∨ password = "" ∨
        password.length < 6 ∨
        student_exists (lower (pyStrip email)) st.students = true) →
      (register hash name email password st).1 =
        RegisterResult.redirectToReview (lower (pyStrip email)) (pyStrip name) ∧
      (register hash name email password st).2.students =
        save_student (pyStrip name) (lower (pyStrip email)) (hash password)
          st.students ∧
      (register hash name email password st).2.reviews =
        create_reviews_row (lower (pyStrip email)) st.reviews ∧
      (∀ d : Weekday,
        ReviewRow.get (freshReviewRow (lower (pyStrip email))) d = "no") ∧
      (freshReviewRow (lower (pyStrip email))).email = lower (pyStrip email)) := by
  constructor
  · intro h
    simp only [register]
    split_ifs with h1 h2 h3
    · exact ⟨rfl, _, rfl⟩
    · exact ⟨rfl, _, rfl⟩
    · exact ⟨rfl, _, rfl⟩
    · rcases h with h | h | h | h | h
      · exact absurd (Or.inl h) h1
      · exact absurd (Or.inr (Or.inl h)) h1
      · exact absurd (Or.inr (Or.inr h)) h1
      · exact absurd h h2
      · exact absurd h h3
  · intro h
    push_neg at h
    obtain ⟨hn, he, hp, hl, hs⟩ := h
    simp only [register]
    rw [if_neg (by simp [hn, he, hp]), if_neg (by omega), if_neg hs]
    exact ⟨rfl, rfl, rfl, fun d => by cases d <;> rfl, rfl⟩

theorem register_spec_witness :
    (register (fun s => String.append "h" s) "Alice" " A@B.C " "secret1"
      ⟨[], []⟩).1 = RegisterResult.redirectToReview "a@b.c" "Alice" ∧
    (register (fun s => String.append "h" s) "Alice" " A@B.C " "secret1"
      ⟨[], []⟩).2.students = [⟨"Alice", "a@b.c", "hsecret1"⟩] ∧
    (register (fun s => String.append "h" s) "Alice" " A@B.C " "secret1"
      ⟨[], []⟩).2.reviews = [freshReviewRow "a@b.c"] :=
  ⟨((register_spec (fun s => String.append "h" s) "Alice" " A@B.C " "secret1"
      ⟨[], []⟩).2 (by decide)).1,
   ((register_spec (fun s => String.append "h" s) "Alice" " A@B.C " "secret1"
      ⟨[], []⟩).2 (by decide)).2.1,
   ((register_spec (fun s => String.append "h" s) "Alice" " A@B.C " "secret1"
      ⟨[], []⟩).2 (by decide)).2.2.1⟩

/-- C6: GET /ratings/&lt;date&gt; for a date with no recorded rating returns the
empty mapping, and after recording two ratings for the same (date, item) pair
the list held for that date and item contains both ratings in submission
order. -/
theorem ratings_query_and_order (R : List (String × List (String × List Int)))
    (date item : String) (r1 r2 : Int) :
    (alookup R date = none → get_ratings R date = []) ∧
    itemList (recordRating (recordRating R date item r1) date item r2) date item =
      itemList R date item ++ [r1, r2] := by
  constructor
  · intro h
    simp [get_ratings, h]
  · rw [itemList_recordRating_self, itemList_recordRating_self, List.append_assoc]
    rfl

theorem ratings_query_and_order_witness :
    get_ratings [] "2024-01-01" = [] ∧
    itemList (recordRating (recordRating [] "2024-01-01" "Idli" 5)
      "2024-01-01" "Idli" 4) "2024-01-01" "Idli" = [5, 4] := by
  refine ⟨(ratings_query_and_order [] "2024-01-01" "Idli" 5 4).1 rfl, ?_⟩
  have h := (ratings_query_and_order [] "2024-01-01" "Idli" 5 4).2
  exact h.trans rfl

/-- C9: every account created through POST /register stores the submitted
email stripped and lowercased — so the appended row's email is lowercase, the
session email on success is that same lowercase value, and a table whose
emails are all lowercase stays that way across any register call. -/
theorem register_lowercase_email (hash : String → String)
    (name email password : String) (st : RegState) :
    (∀ a ∈ (register hash name email password st).2.students,
      a ∈ st.students ∨
        (a.email = lower (pyStrip email) ∧ lower a.email = a.email)) ∧
    ((∀ a ∈ st.students, lower a.email = a.email) →
      ∀ a ∈ (register hash name email password st).2.students,
        lower a.email = a.email) ∧
    (∀ se sn, (register hash name email password st).1 =
        RegisterResult.redirectToReview se sn →
      se = lower (pyStrip email) ∧ lower se = se) := by
  have hlow : lower (lower (pyStrip email)) = lower (pyStrip email) :=
    lower_lower (pyStrip email)
  simp only [register]
  split_ifs with h1 h2 h3
  · exact ⟨fun a ha => Or.inl ha, fun hinv a ha => hinv a ha,
      fun se sn h => h.elim⟩
  · exact ⟨fun a ha => Or.inl ha, fun hinv a ha => hinv a ha,
      fun se sn h => h.elim⟩
  · exact ⟨fun a ha => Or.inl ha, fun hinv a ha => hinv a ha,
      fun se sn h => h.elim⟩
  · refine ⟨fun a ha => ?_, fun hinv a ha => ?_, fun se sn h => ?_⟩
    · simp only [save_student, List.mem_append, List.mem_singleton] at ha
      rcases ha with ha | ha
      · exact Or.inl ha
      · subst ha
        exact Or.inr ⟨rfl, hlow⟩
    · simp only [save_student, List.mem_append, List.mem_singleton] at ha
      rcases ha with ha | ha
      · exact hinv a ha
      · subst ha
        exact hlow
    · have h' : RegisterResult.redirectToReview (lower (pyStrip email))
          (pyStrip name) = RegisterResult.redirectToReview se sn := h
      injection h' with hse hsn
      subst hse
      exact ⟨rfl, hlow⟩

theorem register_lowercase_email_witness :
    "a@b.c" = lower (pyStrip " A@B.C ") ∧ lower "a@b.c" = "a@b.c" :=
  (register_lowercase_email (fun s => s) "Alice" " A@B.C " "secret1"
    ⟨[], []⟩).2.2 "a@b.c" "Alice" (by decide)

/-- C10: with valid item and date, POST /rate answers 400 exactly when Python
int() coercion of the rating fails or the coerced value lies outside [1,5];
hence the float 4.7 is accepted and recorded as 4, the string "3" as 3, and
the boolean true as 1. -/
theorem rate_coercion (item date : String) (r : Jval)
    (hitem : pyStrip item ≠ "") (hdate : pyStrip date ≠ "") :
    (rate (some (mkPayload (some item) (some date) (some r))) =
        RateResult.badRating ↔
      ∀ n : Int, pyInt r = some n → (n < 1 ∨ 5 < n)) ∧
    pyInt (Jval.jrat (mkRat 47 10)) = some 4 ∧
    rate (some (mkPayload (some item) (some date)
        (some (Jval.jrat (mkRat 47 10))))) =
      RateResult.ok "Rating saved" (pyStrip item) 4 (pyStrip date) ∧
    (∀ (st : AppState) (wd : Weekday) (semail : String),
      itemList ((rate_full wd semail
          (some (mkPayload (some item) (some date)
            (some (Jval.jrat (mkRat 47 10))))) st).2.ratings)
          (pyStrip date) (pyStrip item) =
        itemList st.ratings (pyStrip date) (pyStrip item) ++ [4]) ∧
    pyInt (Jval.jstr "3") = some 3 ∧
    rate (some (mkPayload (some item) (some date) (some (Jval.jstr "3")))) =
      RateResult.ok "Rating saved" (pyStrip item) 3 (pyStrip date) ∧
    pyInt (Jval.jbool true) = some 1 ∧
    rate (some (mkPayload (some item) (some date) (some (Jval.jbool true)))) =
      RateResult.ok "Rating saved" (pyStrip item) 1 (pyStrip date) := by
  have hmd : ¬(pyStrip item = "" ∨ pyStrip date = "") := by simp [hitem, hdate]
  have h47 : pyInt (Jval.jrat (mkRat 47 10)) = some 4 := by decide
  have h3 : pyInt (Jval.jstr "3") = some 3 := by decide
  have hb : pyInt (Jval.jbool true) = some 1 := by decide
  have hr47 : rate (some (mkPayload (some item) (some date)
      (some (Jval.jrat (mkRat 47 10))))) =
      RateResult.ok "Rating saved" (pyStrip item) 4 (pyStrip date) := by
    rw [rate_mkPayload_eval, if_neg hmd, h47]
    norm_num
  refine ⟨?_, h47, hr47, ?_, h3, ?_, hb, ?_⟩
  · rw [rate_mkPayload_eval, if_neg hmd]
    cases hr : pyInt r with
    | none => simp
    | some n =>
      by_cases hc : n < 1 ∨ 5 < n
      · simp [hc]
      · simp [hc]
  · intro st wd semail
    simp only [rate_full, hr47]
    exact itemList_recordRating_self st.ratings (pyStrip date) (pyStrip item) 4
  · rw [rate_mkPayload_eval, if_neg hmd, h3]
    norm_num
  · rw [rate_mkPayload_eval, if_neg hmd, hb]
    norm_num

theorem rate_coercion_witness :
    pyInt (Jval.jrat (mkRat 47 10)) = some 4 ∧
    rate (some (mkPayload (some "Idli") (some "2024-01-01")
        (some (Jval.jrat (mkRat 47 10))))) =
      RateResult.ok "Rating saved" "Idli" 4 "2024-01-01" ∧
    itemList ((rate_full Weekday.mon "a@b.c"
        (some (mkPayload (some "Idli") (some "2024-01-01")
          (some (Jval.jrat (mkRat 47 10))))) ⟨[], []⟩).2.ratings)
        "2024-01-01" "Idli" = [4] ∧
    rate (some (mkPayload (some "Idli") (some "2024-01-01")
        (some (Jval.jstr "3")))) =
      RateResult.ok "Rating saved" "Idli" 3 "2024-01-01" ∧
    rate (some (mkPayload (some "Idli") (some "2024-01-01")
        (some (Jval.jbool true)))) =
      RateResult.ok "Rating saved" "Idli" 1 "2024-01-01" := by
  have T := rate_coercion "Idli" "2024-01-01" Jval.jnull (by decide) (by decide)
  exact ⟨T.2.1, T.2.2.1, T.2.2.2.1 ⟨[], []⟩ Weekday.mon "a@b.c",
    T.2.2.2.2.2.1, T.2.2.2.2.2.2.2⟩

end FlavorSense
